import Mathlib

/-!
# Verification of the ArchivesSpace reorder tool

A shallow embedding, in Lean 4, of the validation-and-reorder core of the
`aspace_reorder_tool` repository (files `excel_processor.py`,
`aspace_client.py`, `validation_manager.py`), together with theorems that
settle the frozen claims C1..C10 about the program.

Modelling conventions:
* Spreadsheet cells are modelled by `Cell`: an integer, a string, or an
  empty/NaN cell.  Floating-point cells are outside the model (no claim
  exercises them); consequently `int(...)` and `pandas.to_numeric(...,
  errors="coerce")` succeed on exactly the same modelled cells.
* `int(x)` on a cell is `pyInt`: integers succeed, strings succeed exactly
  when they parse as an optionally-signed decimal numeral after trimming
  ASCII whitespace, NaN/empty fails (Python raises `ValueError`/`TypeError`;
  the model returns `none`).
* A `DataFrame` is a column-name list plus a list of rows; each row carries
  its pandas index label `idx` (needed because `reset_index` happens before
  `dropna`, so the `original_row` diagnostic can have gaps).
* Network calls (`get_record`, the `accept_children` POST) are modelled by
  explicit oracle functions returning `Except String _`; a `.error` value
  models a raised exception, carrying the exception text.
* Logging, console printing and the rate-limiting sleeps have no observable
  effect on any claimed property and are not modelled.
-/

set_option autoImplicit false

namespace AspaceReorder

/-- Decidable equality for `Except`, used to evaluate concrete runs of the
fallible modelled functions. -/
instance {ε α : Type} [DecidableEq ε] [DecidableEq α] : DecidableEq (Except ε α) := fun a b =>
  match a, b with
  | .error e, .error f =>
    if h : e = f then isTrue (by rw [h]) else isFalse (by intro hh; cases hh; exact h rfl)
  | .ok x, .ok y =>
    if h : x = y then isTrue (by rw [h]) else isFalse (by intro hh; cases hh; exact h rfl)
  | .error _, .ok _ => isFalse (by intro h; cases h)
  | .ok _, .error _ => isFalse (by intro h; cases h)

/-- Boolean infix (substring) test on character lists, modelling Python's
`needle in haystack` for strings. -/
def listInfixOf (pat : List Char) : List Char → Bool
  | [] => pat.isEmpty
  | c :: rest => pat.isPrefixOf (c :: rest) || listInfixOf pat rest

/-- Python `pat in hay` on strings. -/
def strContainsSub (hay pat : String) : Bool :=
  listInfixOf pat.toList hay.toList

/-- Python `s.split('/')` on character lists (`"".split('/') = [""]`,
separators at the ends produce empty segments). -/
def splitOnSlash : List Char → List (List Char)
  | [] => [[]]
  | c :: rest =>
    let r := splitOnSlash rest
    if c == '/' then [] :: r
    else
      match r with
      | h :: t => (c :: h) :: t
      | [] => [[c]]

/-- Python `s.split('/')[-1]` (`split` on a non-empty separator never
returns an empty list, so `[-1]` is total). -/
def lastSegment (s : String) : String :=
  String.mk ((splitOnSlash s.toList).getLastD [])

/-- A spreadsheet cell: an integer, a string, or an empty/NaN cell. -/
inductive Cell
  | int (n : Int)
  | str (s : String)
  | empty
deriving DecidableEq, Repr

/-- ASCII whitespace, for the surrounding-whitespace tolerance of
Python's `int(str)`. -/
def charIsWs (c : Char) : Bool :=
  c == ' ' || c == '\t' || c == '\n' || c == '\r'

/-- Strip leading and trailing whitespace from a character list. -/
def trimChars (l : List Char) : List Char :=
  ((l.dropWhile charIsWs).reverse.dropWhile charIsWs).reverse

/-- Parse a non-empty all-digit character list as a natural number. -/
def parseNatChars (l : List Char) : Option Nat :=
  if l.isEmpty then none
  else
    l.foldl
      (fun acc c =>
        match acc with
        | some n => if c.isDigit then some (n * 10 + (c.toNat - 48)) else none
        | none => none)
      (some 0)

/-- Parse an optionally-signed decimal numeral. -/
def parseIntChars : List Char → Option Int
  | '-' :: rest => (parseNatChars rest).map (fun n => -(n : Int))
  | '+' :: rest => (parseNatChars rest).map (fun n => (n : Int))
  | l => (parseNatChars l).map (fun n => (n : Int))

/-- Python `int(s)` on a string: succeeds exactly on optionally-signed
decimal numerals surrounded by whitespace (`none` models the raised
`ValueError`; exotic numerals — underscores, non-ASCII digits — are
outside the model). -/
def pyIntStr (s : String) : Option Int :=
  parseIntChars (trimChars s.toList)

/-- `int(...)` applied to a cell. -/
def pyInt : Cell → Option Int
  | .int n => some n
  | .str s => pyIntStr s
  | .empty => none

/-- A dataframe row together with its pandas index label. -/
structure Row where
  idx : Nat
  cells : List Cell
deriving DecidableEq, Repr

/-- A pandas DataFrame: ordered column names and ordered rows. -/
structure DataFrame where
  columns : List String
  rows : List Row
deriving DecidableEq, Repr

/-- `row[c]` for a column name `c`: the cell at the position of `c` in the
column list (NaN when the column is absent or the row is short). -/
def rowCell (cols : List String) (r : Row) (c : String) : Cell :=
  match cols.findIdx? (fun x => x == c) with
  | some i => r.cells.getD i Cell.empty
  | none => Cell.empty

/-- A row is "completely empty" (`dropna(how="all")`) when every cell is
NaN. -/
def pyAllEmptyRow (r : Row) : Bool :=
  r.cells.all (fun x => x == Cell.empty)

namespace ExcelProcessor

/-- `ExcelProcessor.id_column_variations` (source order preserved). -/
def id_column_variations : List String :=
  ["Id", "ID", "id", "Object ID", "ObjectID", "Archival Object ID",
   "ArchivalObjectID", "Record ID", "RecordID", "Identifier",
   "ASpace ID", "ASpaceID", "Aspace ID", "AspaceID"]

/-- The partial-match test of `find_id_column`: the lower-cased column name
contains one of the tokens "id", "identifier", "object". -/
def colNameTokenMatch (c : String) : Bool :=
  let l := String.mk (c.toList.map Char.toLower)
  strContainsSub l "id" || strContainsSub l "identifier" || strContainsSub l "object"

/-- The numeric-content test of `find_id_column`: after
`pd.to_numeric(df[col], errors="coerce")` the column is not entirely null,
i.e. at least one cell of the column coerces to a number. -/
def colHasNumericContent (df : DataFrame) (c : String) : Bool :=
  df.rows.any (fun r => (pyInt (rowCell df.columns r c)).isSome)

/-- `ExcelProcessor.find_id_column`: exact alias match (in alias-list
order), then partial name match (in column order), then the
numeric-content heuristic (in column order). -/
def find_id_column (df : DataFrame) : Option String :=
  match id_column_variations.find? (fun v => df.columns.contains v) with
  | some c => some c
  | none =>
    match df.columns.find? colNameTokenMatch with
    | some c => some c
    | none => df.columns.find? (colHasNumericContent df)

/-- The body of `clean_archivesspace_dataframe` that decides which leading
rows to drop: the first row always (when present); the next row exactly
when an identifier column was discovered on the original table, its name is
truthy (non-empty — Python's `if id_column`), and that row's identifier
cell does not coerce with `int(...)`. -/
def cleanDroppedRows (df : DataFrame) : List Row :=
  let rows1 := df.rows.drop 1
  match rows1.head? with
  | none => rows1
  | some firstDataRow =>
    match find_id_column df with
    | none => rows1
    | some c =>
      if c == "" then rows1
      else
        match pyInt (rowCell df.columns firstDataRow c) with
        | some _ => rows1
        | none => rows1.drop 1

/-- `ExcelProcessor.clean_archivesspace_dataframe`: drop the header row,
conditionally drop the data-validation row, `reset_index(drop=True)`, then
`dropna(how="all")`.  (The Python check `id_column in first_data_row` tests
membership in the row's index, i.e. the column labels, and is always true
here since the row comes from the same frame.) -/
def clean_archivesspace_dataframe (df : DataFrame) : DataFrame :=
  let rows2 := cleanDroppedRows df
  let rows3 := (rows2.enum).map (fun p => { idx := p.1, cells := p.2.cells : Row })
  { columns := df.columns, rows := rows3.filter (fun r => !(pyAllEmptyRow r)) }

/-- Input-normalisation failures raised by `validate_dataframe` /
`prepare_reorder_data`; each constructor records the diagnostic payload of
the corresponding Python `ValueError` message. -/
inductive NormError
  | noIdColumn (available : List String)
  | noValidData (col : String)
  | noValidIds (col : String)
  | noValidRecords
deriving DecidableEq, Repr

/-- Replace the id-column cell of one row by its
`pd.to_numeric(..., errors="coerce")` image (number, or NaN on failure). -/
def coerceCellOfRow (cols : List String) (c : String) (r : Row) : Row :=
  match cols.findIdx? (fun x => x == c) with
  | some i =>
    { r with cells := (r.cells.set i
        (match pyInt (r.cells.getD i Cell.empty) with
         | some n => Cell.int n
         | none => Cell.empty)) }
  | none => r

/-- The in-place column assignment
`df[id_column] = pd.to_numeric(df[id_column], errors="coerce")`. -/
def coerceIdColumn (df : DataFrame) (c : String) : DataFrame :=
  { df with rows := df.rows.map (coerceCellOfRow df.columns c) }

/-- `ExcelProcessor.validate_dataframe`.  Note the Python function mutates
the caller's frame in place (the column assignment) but its local rebinding
`df = df_clean.copy()` is discarded, so the value returned to
`prepare_reorder_data` is the coerced frame with the NaN-id rows still
present. -/
def validate_dataframe (df : DataFrame) : Except NormError (DataFrame × String) :=
  match find_id_column df with
  | none => .error (.noIdColumn df.columns)
  | some c =>
    if c == "" then .error (.noIdColumn df.columns)
    else if df.rows.all (fun r => rowCell df.columns r c == Cell.empty) then
      .error (.noValidData c)
    else
      let df2 := coerceIdColumn df c
      if (df2.rows.filter (fun r => !(rowCell df2.columns r c == Cell.empty))).isEmpty then
        .error (.noValidIds c)
      else
        .ok (df2, c)

/-- A prepared reorder record (`prepare_reorder_data` emits
`{id, position, row_number, original_row}`). -/
structure MoveRecord where
  id : Int
  position : Nat
  row_number : Nat
  original_row : Nat
deriving DecidableEq, Repr

/-- The row loop of `prepare_reorder_data`: rows whose identifier cell
fails `int(...)` are skipped without advancing the position counter. -/
def prepareLoop (cols : List String) (c : String) : List Row → Nat → List MoveRecord
  | [], _ => []
  | r :: rest, k =>
    match pyInt (rowCell cols r c) with
    | some n =>
      { id := n, position := k, row_number := k, original_row := r.idx } ::
        prepareLoop cols c rest (k + 1)
    | none => prepareLoop cols c rest k

/-- `ExcelProcessor.prepare_reorder_data`. -/
def prepare_reorder_data (df : DataFrame) : Except NormError (List MoveRecord) :=
  match validate_dataframe df with
  | .error e => .error e
  | .ok (df2, c) =>
    let records := prepareLoop df2.columns c df2.rows 1
    if records.isEmpty then .error .noValidRecords else .ok records

end ExcelProcessor

namespace ArchivesSpaceClient

open ExcelProcessor (MoveRecord)

/-- The JSON record of an archival object, reduced to the fields
`validate_child_records` reads.  `isEmpty` models a falsy (empty) JSON
body; `ancestors` is the list of the ancestors' `ref` strings (each
`ancestor.get('ref', '')`, so `""` stands for a missing ref); `resource`
is present exactly when the record has a `resource` key and carries
`resource.get('ref', '')`. -/
structure AORecord where
  isEmpty : Bool
  ancestors : Option (List String)
  resource : Option String
deriving DecidableEq, Repr

/-- The ancestor loop of `validate_child_records` (lines 190-201): walk
the ancestors; stop with `parent_found` on the first ref containing
`"/{parent_id}"` as a substring; otherwise remember the last path segment
of every ref containing `"archival_objects"` as the current parent. -/
def ancestorScan (parent_id : Int) : List String → Option String → Bool × Option String
  | [], cur => (false, cur)
  | ref :: rest, cur =>
    if strContainsSub ref ("/" ++ toString parent_id) then (true, cur)
    else
      ancestorScan parent_id rest
        (if strContainsSub ref "archival_objects" then some (lastSegment ref) else cur)

/-- `parent_found` for a full ancestor list. -/
def parentFound (parent_id : Int) (ancestors : List String) : Bool :=
  (ancestorScan parent_id ancestors none).1

/-- The `current_parent` value left by the ancestor loop. -/
def currentParent (parent_id : Int) (ancestors : List String) : Option String :=
  (ancestorScan parent_id ancestors none).2

/-- Python `str(x)` on the `resource_id` argument, which the caller may
pass as `None`. -/
def pyStrOptInt : Option Int → String
  | none => "None"
  | some n => toString n

/-- The aggregated result dict of `validate_child_records`;
`current_parents` is the insertion-ordered dict `object id → current
parent id (string)`. -/
structure ChildValidationSummary where
  total_checked : Nat
  valid_records : Nat
  invalid_records : Nat
  errors : List String
  reparenting_detected : Bool
  current_parents : List (Int × String)
deriving DecidableEq, Repr

/-- Python dict assignment `d[k] = v`: overwrite in place if the key is
present, else append. -/
def dictInsert (k : Int) (v : String) (d : List (Int × String)) : List (Int × String) :=
  if d.any (fun p => p.1 == k) then d.map (fun p => if p.1 == k then (k, v) else p)
  else d ++ [(k, v)]

/-- Python dict lookup (`k in d` / `d[k]`). -/
def dictLookup (k : Int) (d : List (Int × String)) : Option String :=
  (d.find? (fun p => p.1 == k)).map (fun p => p.2)

/-- One iteration of the sampling loop of `validate_child_records`: fetch
the record (an exception becoming an invalid item), guard on the
`ancestors`/`resource` fields, run the ancestor scan, compare the resource
ref, record reparenting, and classify the item as valid or invalid. -/
def checkChildStep (fetch : Int → Except String AORecord) (parent_id : Int)
    (resource_id : Option Int) (repository_id : String)
    (acc : ChildValidationSummary) (obj_id : Int) : ChildValidationSummary :=
  let acc := { acc with total_checked := acc.total_checked + 1 }
  match fetch obj_id with
  | .error e =>
    { acc with invalid_records := acc.invalid_records + 1,
               errors := acc.errors ++ ["Record " ++ toString obj_id ++ ": " ++ e] }
  | .ok record =>
    if record.isEmpty || record.ancestors.isNone || record.resource.isNone then
      { acc with invalid_records := acc.invalid_records + 1,
                 errors := acc.errors ++
                   ["Record " ++ toString obj_id ++ ": Missing ancestors or resource field"] }
    else
      let ancestors := record.ancestors.getD []
      let parent_found := parentFound parent_id ancestors
      let resource_ref := record.resource.getD ""
      let expected_resource_ref :=
        "/repositories/" ++ repository_id ++ "/resources/" ++ pyStrOptInt resource_id
      let resource_matches := resource_ref == expected_resource_ref
      let acc :=
        match currentParent parent_id ancestors with
        | some s =>
          if !parent_found && !(s == "") && !(s == toString parent_id) then
            { acc with reparenting_detected := true,
                       current_parents := dictInsert obj_id s acc.current_parents }
          else acc
        | none => acc
      if parent_found && resource_matches then
        { acc with valid_records := acc.valid_records + 1 }
      else
        let acc := { acc with invalid_records := acc.invalid_records + 1 }
        let acc :=
          if !parent_found then
            { acc with errors := acc.errors ++
                ["Record " ++ toString obj_id ++ ": Parent " ++ toString parent_id ++
                 " not found in ancestors"] }
          else acc
        if !resource_matches then
          { acc with errors := acc.errors ++
              ["Record " ++ toString obj_id ++ ": Resource " ++ pyStrOptInt resource_id ++
               " mismatch (found: " ++ resource_ref ++ ")"] }
        else acc

/-- The empty result dict `validate_child_records` starts from. -/
def initialSummary : ChildValidationSummary :=
  { total_checked := 0, valid_records := 0, invalid_records := 0,
    errors := [], reparenting_detected := false, current_parents := [] }

/-- `ArchivesSpaceClient.validate_child_records`: check the first
`max_samples` object ids (`object_ids[:max_samples]`) one by one. -/
def validate_child_records (fetch : Int → Except String AORecord)
    (object_ids : List Int) (parent_id : Int) (resource_id : Option Int)
    (repository_id : String) (max_samples : Nat) : ChildValidationSummary :=
  (object_ids.take max_samples).foldl
    (checkChildStep fetch parent_id resource_id repository_id) initialSummary

/-- The `title` field of a fetched record, as far as `get_record_title`
inspects it: a string or a list of strings. -/
inductive TitleVal
  | str (s : String)
  | list (l : List String)
deriving DecidableEq, Repr

/-- A parent record, reduced to the fields read by `get_record_title`,
`validate_parent_record` and `extract_resource_id_from_parent`:
an optional `title`, and `resource.get('ref', '')` when the record has a
`resource` key. -/
structure ParentRecord where
  title : Option TitleVal
  resource : Option String
deriving DecidableEq, Repr

/-- The title-resolution logic of `get_record_title` (identical for every
record type): `record.get('title', 'No title found')`, take the first
element of a non-empty list, and replace any falsy result (empty string,
empty list) by `"No title found"`. -/
def resolveTitle (r : ParentRecord) : String :=
  match r.title with
  | none => "No title found"
  | some (.str s) => if s == "" then "No title found" else s
  | some (.list []) => "No title found"
  | some (.list (h :: _)) => if h == "" then "No title found" else h

/-- `ArchivesSpaceClient.get_record_title`: a failed fetch is caught and
reported as an error string, never raised. -/
def get_record_title (fetch : String → Int → Except String ParentRecord)
    (record_type : String) (record_id : Int) : String :=
  match fetch record_type record_id with
  | .error e => "Error retrieving title: " ++ e
  | .ok r => resolveTitle r

/-- The validation dict built by `validate_parent_record` (the Python
field `exists`). -/
structure ParentValidation where
  recordExists : Bool
  type : String
  id : Int
  title : Option String
  record : Option ParentRecord
  error : Option String
deriving DecidableEq, Repr

/-- `ArchivesSpaceClient.validate_parent_record`: any exception from the
fetch is caught and turned into an `exists = False` result; on success the
title is resolved by a second fetch through `get_record_title`. -/
def validate_parent_record (fetch : String → Int → Except String ParentRecord)
    (parent_type : String) (parent_id : Int) : ParentValidation :=
  match fetch parent_type parent_id with
  | .ok record =>
    { recordExists := true, type := parent_type, id := parent_id,
      title := some (get_record_title fetch parent_type parent_id),
      record := some record, error := none }
  | .error e =>
    { recordExists := false, type := parent_type, id := parent_id,
      title := none, record := none, error := some e }

/-- One entry of the `results` list of `move_multiple_objects`: the API
response payload on success, or the `{'error': ..., 'object_id': ...}`
dict recorded when `move_object` raised. -/
inductive MoveOutcome
  | success (payload : String)
  | failure (error : String) (object_id : Int)
deriving DecidableEq, Repr

/-- The final dict returned by `move_multiple_objects`. -/
structure BulkResult where
  status : String
  total_records : Nat
  success_count : Nat
  error_count : Nat
  results : List MoveOutcome
deriving DecidableEq, Repr

/-- The loop `for i in range(0, total_records, batch_size)` with
`batch = records[i:i+batch_size]` and `batch_size = 50`, as the list of
batches it visits. -/
def chunks50 {α : Type} (l : List α) : List (List α) :=
  if l.isEmpty then [] else l.take 50 :: chunks50 (l.drop 50)
termination_by l.length
decreasing_by
  cases l with
  | nil => simp_all
  | cons a t =>
    simp only [List.length_drop, List.length_cons]
    omega

/-- Running accumulator of the bulk loop (`success_count`, `error_count`,
`results`). -/
structure MoveAcc where
  success_count : Nat
  error_count : Nat
  results : List MoveOutcome
deriving DecidableEq, Repr

/-- One inner iteration of the bulk loop: call `move_object` (modelled by
the oracle `mv`, keyed by object id and position); append the response on
success; on an exception append an error entry and continue. -/
def moveStep (mv : Int → Nat → Except String String)
    (acc : MoveAcc) (record : MoveRecord) : MoveAcc :=
  match mv record.id record.position with
  | .ok result =>
    { acc with success_count := acc.success_count + 1,
               results := acc.results ++ [MoveOutcome.success result] }
  | .error e =>
    { acc with error_count := acc.error_count + 1,
               results := acc.results ++ [MoveOutcome.failure e record.id] }

/-- `ArchivesSpaceClient.move_multiple_objects` (the per-request and
per-batch sleeps and the progress printing have no observable effect on
the result and are not modelled). -/
def move_multiple_objects (mv : Int → Nat → Except String String)
    (records : List MoveRecord) : BulkResult :=
  let acc := (chunks50 records).foldl (fun a batch => batch.foldl (moveStep mv) a)
    { success_count := 0, error_count := 0, results := [] }
  { status := "completed", total_records := records.length,
    success_count := acc.success_count, error_count := acc.error_count,
    results := acc.results }

end ArchivesSpaceClient

namespace ValidationManager

open ExcelProcessor (MoveRecord)

/-- `validation_manager.validate_parent_record`: forward the client result
and return its `exists` flag as the success boolean.  (The surrounding
`try/except` is unreachable in the model: the client function is total.) -/
def validate_parent_record (fetch : String → Int → Except String ArchivesSpaceClient.ParentRecord)
    (parent_type : String) (parent_id : Int) :
    Bool × ArchivesSpaceClient.ParentValidation :=
  let validation_result := ArchivesSpaceClient.validate_parent_record fetch parent_type parent_id
  (validation_result.recordExists, validation_result)

/-- `validation_manager.validate_child_records`: collect the record ids,
run the client-side sampling validation, and judge the run eligible
exactly when `valid_records > 0 and invalid_records == 0`. -/
def validate_child_records (fetch : Int → Except String ArchivesSpaceClient.AORecord)
    (records : List MoveRecord) (parent_id : Int) (resource_id : Option Int)
    (repository_id : String) (max_samples : Nat) :
    Bool × ArchivesSpaceClient.ChildValidationSummary :=
  let object_ids := records.map (fun r => r.id)
  let validation_results := ArchivesSpaceClient.validate_child_records fetch object_ids
    parent_id resource_id repository_id max_samples
  (decide (0 < validation_results.valid_records) &&
    decide (validation_results.invalid_records = 0), validation_results)

/-- `validation_manager.extract_resource_id_from_parent`: a "resources"
parent is its own resource; otherwise fetch the parent and parse the last
path segment of `resource.ref`; any exception (fetch failure, unparsable
segment) and any absent/empty ref yield `None` (with a printed warning,
not a raised error). -/
def extract_resource_id_from_parent
    (fetch : String → Int → Except String ArchivesSpaceClient.ParentRecord)
    (parent_type : String) (parent_id : Int) : Option Int :=
  if parent_type == "resources" then some parent_id
  else
    match fetch parent_type parent_id with
    | .error _ => none
    | .ok parent_record =>
      let resource_ref := parent_record.resource.getD ""
      if resource_ref == "" then none
      else
        match pyIntStr (lastSegment resource_ref) with
        | some resource_id => some resource_id
        | none => none

end ValidationManager

/-! ## Helper lemmas about the Input Normalizer -/

namespace ExcelProcessor

/-- `getD` after `set` at the same index. -/
lemma getD_set_self {α : Type} (d v : α) :
    ∀ (l : List α) (i : Nat), (l.set i v).getD i d = if i < l.length then v else d := by
  intro l
  induction l with
  | nil => intro i; cases i <;> simp [List.getD]
  | cons a t ih =>
    intro i
    cases i with
    | zero => simp [List.getD]
    | succ j => simpa [List.getD] using ih j

/-- `getD` out of range. -/
lemma getD_of_length_le {α : Type} (d : α) :
    ∀ (l : List α) (i : Nat), l.length ≤ i → l.getD i d = d := by
  intro l
  induction l with
  | nil => intro i _; cases i <;> simp [List.getD]
  | cons a t ih =>
    intro i h
    cases i with
    | zero => simp at h
    | succ j => simpa [List.getD] using ih j (by simpa using h)

/-- Coercing the id column does not move a row's index label. -/
lemma coerceCellOfRow_idx (cols : List String) (c : String) (r : Row) :
    (coerceCellOfRow cols c r).idx = r.idx := by
  unfold coerceCellOfRow
  cases cols.findIdx? (fun x => x == c) <;> rfl

/-- Reading the id column after the in-place `to_numeric` assignment. -/
lemma rowCell_coerceCellOfRow (cols : List String) (c : String) (r : Row) :
    rowCell cols (coerceCellOfRow cols c r) c =
      (match pyInt (rowCell cols r c) with
       | some n => Cell.int n
       | none => Cell.empty) := by
  unfold rowCell coerceCellOfRow
  cases h : cols.findIdx? (fun x => x == c) with
  | none => simp [pyInt]
  | some i =>
    dsimp only
    by_cases hi : i < r.cells.length
    · simp only [getD_set_self, hi, if_pos]
    · rw [getD_set_self, if_neg hi, getD_of_length_le _ _ _ (Nat.le_of_not_lt hi)]
      simp [pyInt]

/-- The coercible rows of a frame at a column, with their index labels, in
row order. -/
def coercibleRows (df : DataFrame) (c : String) : List (Int × Nat) :=
  df.rows.filterMap (fun r => (pyInt (rowCell df.columns r c)).map (fun n => (n, r.idx)))

/-- Emit one `MoveRecord` per coercible row, positions counting up from
`k`. -/
def numberFrom (k : Nat) : List (Int × Nat) → List MoveRecord
  | [] => []
  | p :: rest =>
    { id := p.1, position := k, row_number := k, original_row := p.2 } :: numberFrom (k + 1) rest

lemma numberFrom_length : ∀ (l : List (Int × Nat)) (k : Nat), (numberFrom k l).length = l.length := by
  intro l
  induction l with
  | nil => intro k; rfl
  | cons p rest ih => intro k; simp [numberFrom, ih]

lemma numberFrom_positions :
    ∀ (l : List (Int × Nat)) (k : Nat),
      (numberFrom k l).map (fun r => r.position) = List.range' k l.length := by
  intro l
  induction l with
  | nil => intro k; rfl
  | cons p rest ih =>
    intro k
    simp [numberFrom, ih, List.range'_succ]

lemma numberFrom_ids :
    ∀ (l : List (Int × Nat)) (k : Nat),
      (numberFrom k l).map (fun r => r.id) = l.map (fun p => p.1) := by
  intro l
  induction l with
  | nil => intro k; rfl
  | cons p rest ih => intro k; simp [numberFrom, ih]

/-- The row loop of `prepare_reorder_data` in closed form: one record per
coercible row, densely numbered from `k`. -/
lemma prepareLoop_eq (cols : List String) (c : String) :
    ∀ (rows : List Row) (k : Nat),
      prepareLoop cols c rows k =
        numberFrom k (rows.filterMap
          (fun r => (pyInt (rowCell cols r c)).map (fun n => (n, r.idx)))) := by
  intro rows
  induction rows with
  | nil => intro k; rfl
  | cons r rest ih =>
    intro k
    cases h : pyInt (rowCell cols r c) with
    | some n => simp [prepareLoop, h, ih, numberFrom]
    | none => simp [prepareLoop, h, ih]

/-- The number of coercible rows is the count of rows whose identifier
cell coerces. -/
lemma coercibleRows_length (df : DataFrame) (c : String) :
    (coercibleRows df c).length =
      df.rows.countP (fun r => (pyInt (rowCell df.columns r c)).isSome) := by
  unfold coercibleRows
  induction df.rows with
  | nil => rfl
  | cons r rest ih =>
    cases h : pyInt (rowCell df.columns r c) with
    | some n => simp [List.filterMap_cons, h, List.countP_cons, ih]
    | none => simp [List.filterMap_cons, h, List.countP_cons, ih]

/-- The in-place column coercion changes no coercible row. -/
lemma coercibleRows_coerceIdColumn (df : DataFrame) (c : String) :
    coercibleRows (coerceIdColumn df c) c = coercibleRows df c := by
  unfold coercibleRows coerceIdColumn
  simp only [List.filterMap_map]
  congr 1
  funext r
  simp only [Function.comp]
  rw [rowCell_coerceCellOfRow, coerceCellOfRow_idx]
  cases h : pyInt (rowCell df.columns r c) <;> simp [h, pyInt]

/-- Under a discovered, truthy id column with at least one coercible row,
`validate_dataframe` succeeds and hands back the coerced frame. -/
lemma validate_dataframe_of_pos (df : DataFrame) (c : String)
    (hfind : find_id_column df = some c) (hc : ¬ c = "")
    (hN : 0 < df.rows.countP (fun r => (pyInt (rowCell df.columns r c)).isSome)) :
    validate_dataframe df = .ok (coerceIdColumn df c, c) := by
  obtain ⟨r, hr, hsome⟩ := List.countP_pos_iff.mp hN
  unfold validate_dataframe
  rw [hfind]
  obtain ⟨n, hn⟩ := Option.isSome_iff_exists.mp (by simpa using hsome)
  have hcell : ¬ (rowCell df.columns r c == Cell.empty) = true := by
    intro hcontra
    rw [show rowCell df.columns r c = Cell.empty from by simpa using hcontra] at hn
    simp [pyInt] at hn
  have hall : df.rows.all (fun r => rowCell df.columns r c == Cell.empty) = false := by
    rw [List.all_eq_false]
    exact ⟨r, hr, hcell⟩
  have hfilter :
      ((coerceIdColumn df c).rows.filter
        (fun r => !(rowCell (coerceIdColumn df c).columns r c == Cell.empty))).isEmpty = false := by
    rw [List.isEmpty_eq_false_iff_exists_mem]
    refine ⟨coerceCellOfRow df.columns c r, List.mem_filter.mpr ⟨List.mem_map_of_mem _ hr, ?_⟩⟩
    show (!(rowCell df.columns (coerceCellOfRow df.columns c r) c == Cell.empty)) = true
    rw [rowCell_coerceCellOfRow, hn]
    rfl
  simp only [beq_iff_eq, hc, if_false, hall, Bool.false_eq_true, hfilter]

/-- C1 (amended: for N ≥ 1; a table with zero coercible identifier cells
makes `prepare_reorder_data` fail instead of returning an empty list).
For every table on which an identifier column `c` is discovered (with a
non-empty name) and in which exactly N ≥ 1 rows have an identifier cell
coercible to an integer, `prepare_reorder_data` returns exactly N
MoveRecords — one per coercible row, in original row order, duplicates
included — whose positions are the dense sequence 1..N; non-coercible
rows are skipped without advancing the position counter. -/
theorem C1_prepare_reorder_dense_positions (df : DataFrame) (c : String)
    (hfind : find_id_column df = some c) (hc : ¬ c = "")
    (hN : 0 < df.rows.countP (fun r => (pyInt (rowCell df.columns r c)).isSome)) :
    prepare_reorder_data df = .ok (numberFrom 1 (coercibleRows df c)) ∧
    (numberFrom 1 (coercibleRows df c)).length =
      df.rows.countP (fun r => (pyInt (rowCell df.columns r c)).isSome) ∧
    (numberFrom 1 (coercibleRows df c)).map (fun r => r.position) =
      List.range' 1 (coercibleRows df c).length ∧
    (numberFrom 1 (coercibleRows df c)).map (fun r => r.id) =
      (coercibleRows df c).map (fun p => p.1) := by
  have hv := validate_dataframe_of_pos df c hfind hc hN
  have hloop : prepareLoop (coerceIdColumn df c).columns c (coerceIdColumn df c).rows 1 =
      numberFrom 1 (coercibleRows df c) := by
    rw [prepareLoop_eq]
    exact congrArg (numberFrom 1) (coercibleRows_coerceIdColumn df c)
  have hpos : 0 < (numberFrom 1 (coercibleRows df c)).length := by
    rw [numberFrom_length, coercibleRows_length]
    exact hN
  have hne : (numberFrom 1 (coercibleRows df c)).isEmpty = false := by
    cases hcb : numberFrom 1 (coercibleRows df c) with
    | nil => rw [hcb] at hpos; simp at hpos
    | cons a t => rfl
  refine ⟨?_, ?_, numberFrom_positions _ _, numberFrom_ids _ _⟩
  · unfold prepare_reorder_data
    rw [hv]
    simp only [hloop, hne, Bool.false_eq_true, if_false]
  · rw [numberFrom_length, coercibleRows_length]

/-- Input table for the C1 witness: rows with identifiers 101, "zz"
(non-coercible), 102. -/
def dfC1w : DataFrame :=
  ⟨["Id", "Title"],
   [⟨0, [Cell.int 101, Cell.str "A"]⟩,
    ⟨1, [Cell.str "zz", Cell.str "B"]⟩,
    ⟨2, [Cell.int 102, Cell.str "C"]⟩]⟩

/-- Witness for C1: on `dfC1w` the hypotheses hold and the two coercible
rows yield records at positions 1 and 2, skipping the middle row without a
gap. -/
theorem C1_prepare_reorder_dense_positions_witness :
    find_id_column dfC1w = some "Id" ∧ ¬ "Id" = "" ∧
    0 < dfC1w.rows.countP (fun r => (pyInt (rowCell dfC1w.columns r "Id")).isSome) ∧
    (prepare_reorder_data dfC1w = .ok (numberFrom 1 (coercibleRows dfC1w "Id")) ∧
     (numberFrom 1 (coercibleRows dfC1w "Id")).length =
       dfC1w.rows.countP (fun r => (pyInt (rowCell dfC1w.columns r "Id")).isSome) ∧
     (numberFrom 1 (coercibleRows dfC1w "Id")).map (fun r => r.position) =
       List.range' 1 (coercibleRows dfC1w "Id").length ∧
     (numberFrom 1 (coercibleRows dfC1w "Id")).map (fun r => r.id) =
       (coercibleRows dfC1w "Id").map (fun p => p.1)) :=
  ⟨by decide, by decide, by decide,
   C1_prepare_reorder_dense_positions dfC1w "Id" (by decide) (by decide) (by decide)⟩

/-- Input table for the C1 counterexample: an identifier column whose
single cell is not coercible (N = 0). -/
def dfC1x : DataFrame := ⟨["Id"], [⟨0, [Cell.str "n/a"]⟩]⟩

/-- Counterexample to C1 as stated: with exactly 0 coercible rows the
claim demands 0 returned MoveRecords, but `prepare_reorder_data` raises
(`No valid IDs found in column 'Id'`) instead of returning an empty
list. -/
theorem C1_prepare_reorder_dense_positions_counterexample :
    dfC1x.rows.countP (fun r => (pyInt (rowCell dfC1x.columns r "Id")).isSome) = 0 ∧
    prepare_reorder_data dfC1x = .error (.noValidIds "Id") ∧
    ¬ prepare_reorder_data dfC1x = .ok [] := by decide

/-- The data-validation-row test of `clean_archivesspace_dataframe`: there
is a row after the dropped header row and its identifier cell does not
coerce with `int(...)`. -/
def secondRowNonNumeric (df : DataFrame) (c : String) : Bool :=
  match (df.rows.drop 1).head? with
  | some r => (pyInt (rowCell df.columns r c)).isNone
  | none => false

/-- The example table of C6 (columns chosen so an identifier column
exists, as the claim presupposes): rows
`[("x","header"), ("n/a","validation"), (101,"A"), (102,"B")]`. -/
def dfC6ex : DataFrame :=
  ⟨["Id", "Title"],
   [⟨0, [Cell.str "x", Cell.str "header"]⟩,
    ⟨1, [Cell.str "n/a", Cell.str "validation"]⟩,
    ⟨2, [Cell.int 101, Cell.str "A"]⟩,
    ⟨3, [Cell.int 102, Cell.str "B"]⟩]⟩

/-- C6 (amended: the additional drop of the row after the header also
requires the discovered identifier column to have a truthy, i.e.
non-empty, name — Python's `if id_column:`).  Under a discovered id column
with non-empty name, cleaning drops the first row, additionally drops the
next row exactly when its identifier cell is not coercible to an integer,
never drops more than these two leading rows for that reason, renumbers
the index, and drops fully empty rows anywhere; and the example rows
normalize to records `[{id:101,pos:1},{id:102,pos:2}]`. -/
theorem C6_clean_leading_rows (df : DataFrame) (c : String)
    (hfind : find_id_column df = some c) (hc : ¬ c = "") :
    (clean_archivesspace_dataframe df).rows =
      (((df.rows.drop (if secondRowNonNumeric df c then 2 else 1)).enum).map
        (fun p => { idx := p.1, cells := p.2.cells : Row })).filter
          (fun r => !(pyAllEmptyRow r)) ∧
    prepare_reorder_data (clean_archivesspace_dataframe dfC6ex) =
      .ok [⟨101, 1, 1, 0⟩, ⟨102, 2, 2, 1⟩] := by
  constructor
  · have hcb : (c == "") = false := by simpa using hc
    unfold clean_archivesspace_dataframe cleanDroppedRows secondRowNonNumeric
    rw [hfind]
    cases hh : df.rows[1]? with
    | none => simp [List.head?_drop, hh]
    | some r0 =>
      cases hp : pyInt (rowCell df.columns r0 c) with
      | some n => simp [List.head?_drop, hh, hcb, hp]
      | none => simp [List.head?_drop, hh, hcb, hp, List.drop_drop]
  · decide

/-- Witness for C6: the amended theorem applied to the example table. -/
theorem C6_clean_leading_rows_witness :
    find_id_column dfC6ex = some "Id" ∧ ¬ "Id" = "" ∧
    ((clean_archivesspace_dataframe dfC6ex).rows =
      (((dfC6ex.rows.drop (if secondRowNonNumeric dfC6ex "Id" then 2 else 1)).enum).map
        (fun p => { idx := p.1, cells := p.2.cells : Row })).filter
          (fun r => !(pyAllEmptyRow r)) ∧
     prepare_reorder_data (clean_archivesspace_dataframe dfC6ex) =
       .ok [⟨101, 1, 1, 0⟩, ⟨102, 2, 2, 1⟩]) :=
  ⟨by decide, by decide, C6_clean_leading_rows dfC6ex "Id" (by decide) (by decide)⟩

/-- Counterexample table for C6: the identifier column discovered by the
numeric-content heuristic is literally named `""`. -/
def dfC6x : DataFrame :=
  ⟨["", "X"],
   [⟨0, [Cell.int 1, Cell.str "h"]⟩,
    ⟨1, [Cell.str "n/a", Cell.str "v"]⟩,
    ⟨2, [Cell.int 2, Cell.str "a"]⟩]⟩

/-- Counterexample to C6 as stated: on `dfC6x` an identifier column (named
`""`) is discovered and the row following the header has a non-coercible
identifier cell, yet Python's truthiness test `if id_column:` skips the
additional drop, so the row survives cleaning — the claimed iff fails. -/
theorem C6_clean_leading_rows_counterexample :
    find_id_column dfC6x = some "" ∧
    ((dfC6x.rows.drop 1).head?.map
      (fun r => (pyInt (rowCell dfC6x.columns r "")).isNone)) = some true ∧
    (clean_archivesspace_dataframe dfC6x).rows.map Row.cells =
      [[Cell.str "n/a", Cell.str "v"], [Cell.int 2, Cell.str "a"]] := by decide

/-- Strategy (a) of column discovery: exact match against the alias
list. -/
def stratExact (df : DataFrame) : Option String :=
  id_column_variations.find? (fun v => df.columns.contains v)

/-- Strategy (b): case-insensitive token match on the column name. -/
def stratToken (df : DataFrame) : Option String :=
  df.columns.find? colNameTokenMatch

/-- Strategy (c) as the code implements it: the first column with at
least one numerically-coercible value. -/
def stratAnyNumeric (df : DataFrame) : Option String :=
  df.columns.find? (colHasNumericContent df)

/-- The claim's wording of strategy (c): a column whose values are mostly
(more than half) numeric. -/
def spec_mostlyNumeric (df : DataFrame) (c : String) : Prop :=
  df.rows.length < 2 * df.rows.countP (fun r => (pyInt (rowCell df.columns r c)).isSome)

instance (df : DataFrame) (c : String) : Decidable (spec_mostlyNumeric df c) :=
  inferInstanceAs (Decidable (df.rows.length <
    2 * df.rows.countP (fun r => (pyInt (rowCell df.columns r c)).isSome)))

/-- C7 (amended: strategy (c) selects the first column with at least one
numeric-coercible value, not a column whose values are mostly numeric).
Column discovery tries exact alias match, then name-token match, then the
numeric-content heuristic, in that order, first match winning; when no
strategy matches, validation fails with an error reporting the available
column names. -/
theorem C7_find_id_column_strategies (df : DataFrame) :
    find_id_column df =
      ((stratExact df).orElse (fun _ => (stratToken df).orElse (fun _ => stratAnyNumeric df))) ∧
    (find_id_column df = none → validate_dataframe df = .error (.noIdColumn df.columns)) := by
  constructor
  · unfold find_id_column stratExact stratToken stratAnyNumeric
    cases id_column_variations.find? (fun v => df.columns.contains v) <;>
      cases df.columns.find? colNameTokenMatch <;> simp
  · intro h
    unfold validate_dataframe
    rw [h]

/-- A table with no identifier column at all, for the C7 witness. -/
def dfC7w : DataFrame := ⟨["zz"], [⟨0, [Cell.str "a"]⟩]⟩

/-- Witness for C7: the strategy-chain equation at `dfC7w`, and — since no
strategy matches there — validation failing with the available column
names. -/
theorem C7_find_id_column_strategies_witness :
    find_id_column dfC7w =
      ((stratExact dfC7w).orElse (fun _ => (stratToken dfC7w).orElse (fun _ => stratAnyNumeric dfC7w))) ∧
    find_id_column dfC7w = none ∧
    validate_dataframe dfC7w = .error (.noIdColumn ["zz"]) :=
  ⟨(C7_find_id_column_strategies dfC7w).1, by decide,
   (C7_find_id_column_strategies dfC7w).2 (by decide)⟩

/-- Counterexample table for C7: column "Foo" holds one numeric value
among three. -/
def dfC7x : DataFrame :=
  ⟨["Foo"], [⟨0, [Cell.str "a"]⟩, ⟨1, [Cell.str "b"]⟩, ⟨2, [Cell.int 7]⟩]⟩

/-- Counterexample to C7 as stated: discovery succeeds on `dfC7x` although
no claimed strategy matches — no alias, no name token, and the values of
the selected column are not mostly numeric (1 of 3). -/
theorem C7_find_id_column_strategies_counterexample :
    find_id_column dfC7x = some "Foo" ∧ stratExact dfC7x = none ∧
    stratToken dfC7x = none ∧ ¬ spec_mostlyNumeric dfC7x "Foo" := by decide

end ExcelProcessor

/-! ## Helper lemmas about the Consistency Checker -/

namespace ArchivesSpaceClient

open ExcelProcessor (MoveRecord)

/-- The break-on-first-hit ancestor loop finds the parent exactly when
some ancestor ref contains `"/{parent_id}"` as a substring, whatever the
running current-parent accumulator is. -/
lemma ancestorScan_fst (pid : Int) :
    ∀ (l : List String) (cur : Option String),
      (ancestorScan pid l cur).1 = l.any (fun r => strContainsSub r ("/" ++ toString pid)) := by
  intro l
  induction l with
  | nil => intro cur; rfl
  | cons a rest ih =>
    intro cur
    cases h : strContainsSub a ("/" ++ toString pid) <;>
      simp [ancestorScan, h, ih]

/-- Path-segment containment, the notion the claim C2 uses: the decimal
parent id is one complete `/`-separated segment of the ref. -/
def refHasSegment (ref : String) (pid : Int) : Bool :=
  ((splitOnSlash ref.toList).map String.mk).contains (toString pid)

/-- C2 (amended: `found_in_ancestors` is a plain substring test, not a
path-segment test).  For every record and target parent id, the loop sets
`parent_found` iff some ancestor's reference string contains `"/"`
followed by the decimal parent id as a substring — so a parent id that is
a proper prefix of an ancestor's id (12 against
`/repositories/2/archival_objects/123`) does count as found. -/
theorem C2_parent_found_substring (pid : Int) (ancestors : List String) :
    parentFound pid ancestors =
      ancestors.any (fun r => strContainsSub r ("/" ++ toString pid)) :=
  ancestorScan_fst pid ancestors none

/-- Counterexample to C2 as stated: parent id 12 is not a path segment of
`/repositories/2/archival_objects/123`, yet the code reports it found in
the ancestors. -/
theorem C2_parent_found_substring_counterexample :
    parentFound 12 ["/repositories/2/archival_objects/123"] = true ∧
    refHasSegment "/repositories/2/archival_objects/123" 12 = false := by decide

/-- Unfolding one step of a dict lookup. -/
lemma dictLookup_cons (k : Int) (x : Int × String) (d : List (Int × String)) :
    dictLookup k (x :: d) = if (x.1 == k) = true then some x.2 else dictLookup k d := by
  unfold dictLookup
  cases h : (x.1 == k) <;> simp [List.find?_cons, h]

/-- Looking up the key just inserted. -/
lemma dictLookup_dictInsert_self (k : Int) (v : String) :
    ∀ (d : List (Int × String)), dictLookup k (dictInsert k v d) = some v := by
  have replace : ∀ (d : List (Int × String)), d.any (fun p => p.1 == k) = true →
      dictLookup k (d.map (fun p => if p.1 == k then (k, v) else p)) = some v := by
    intro d
    induction d with
    | nil => intro h; simp at h
    | cons p rest ih =>
      intro h
      rw [List.map_cons, dictLookup_cons]
      cases hp : (p.1 == k) with
      | true =>
        rw [show (if true = true then (k, v) else p) = (k, v) from rfl]
        rw [if_pos (show (((k, v) : Int × String).1 == k) = true by simp)]
      | false =>
        have hrest : rest.any (fun p => p.1 == k) = true := by
          simpa [List.any_cons, hp] using h
        rw [show (if false = true then (k, v) else p) = p from rfl]
        rw [if_neg (by simp [hp])]
        exact ih hrest
  have append : ∀ (d : List (Int × String)), d.any (fun p => p.1 == k) = false →
      dictLookup k (d ++ [(k, v)]) = some v := by
    intro d
    induction d with
    | nil => intro _; rw [List.nil_append, dictLookup_cons]; simp
    | cons p rest ih =>
      intro h
      have hp : (p.1 == k) = false := by
        cases hcp : (p.1 == k) with
        | true => rw [List.any_cons, hcp] at h; simp at h
        | false => rfl
      have hrest : rest.any (fun p => p.1 == k) = false := by
        rw [List.any_cons, hp] at h
        simpa using h
      rw [List.cons_append, dictLookup_cons, if_neg (by simp [hp])]
      exact ih hrest
  intro d
  unfold dictInsert
  cases h : d.any (fun p => p.1 == k) with
  | true => simpa [h] using replace d h
  | false => simpa [h] using append d h

/-- Inserting a different key leaves a lookup unchanged. -/
lemma dictLookup_dictInsert_ne (k k2 : Int) (hne : ¬ k = k2) (v : String) :
    ∀ (d : List (Int × String)), dictLookup k (dictInsert k2 v d) = dictLookup k d := by
  have hk2k : (k2 == k) = false := by
    cases h : (k2 == k) with
    | true => exact absurd (beq_iff_eq.mp h).symm hne
    | false => rfl
  have replace : ∀ (d : List (Int × String)),
      dictLookup k (d.map (fun p => if p.1 == k2 then (k2, v) else p)) = dictLookup k d := by
    intro d
    induction d with
    | nil => rfl
    | cons p rest ih =>
      rw [List.map_cons, dictLookup_cons, dictLookup_cons]
      cases hp2 : (p.1 == k2) with
      | true =>
        have hpk : (p.1 == k) = false := by
          cases hpk : (p.1 == k) with
          | true => exact absurd ((beq_iff_eq.mp hpk).symm.trans (beq_iff_eq.mp hp2)) hne
          | false => rfl
        rw [show (if true = true then (k2, v) else p) = (k2, v) from rfl]
        rw [if_neg (by simp [hk2k]), if_neg (by simp [hpk]), ih]
      | false =>
        rw [show (if false = true then (k2, v) else p) = p from rfl]
        rw [ih]
  have append : ∀ (d : List (Int × String)),
      dictLookup k (d ++ [(k2, v)]) = dictLookup k d := by
    intro d
    induction d with
    | nil =>
      rw [List.nil_append, dictLookup_cons, if_neg (by simp [hk2k])]
    | cons p rest ih =>
      rw [List.cons_append, dictLookup_cons, dictLookup_cons, ih]
  intro d
  unfold dictInsert
  cases h : d.any (fun p => p.1 == k2) with
  | true => simpa [h] using replace d
  | false => simpa [h] using append d

/-- Each sampling-loop iteration raises `total_checked` by exactly one. -/
lemma checkChildStep_total (fetch : Int → Except String AORecord) (pid : Int)
    (rid : Option Int) (repo : String) (acc : ChildValidationSummary) (o : Int) :
    (checkChildStep fetch pid rid repo acc o).total_checked = acc.total_checked + 1 := by
  unfold checkChildStep
  cases fetch o <;> dsimp only <;> (repeat' split) <;> rfl

/-- Each sampling-loop iteration classifies its item exactly once: it
raises `valid_records + invalid_records` by exactly one, whatever branch
(exception included) is taken. -/
lemma checkChildStep_counts (fetch : Int → Except String AORecord) (pid : Int)
    (rid : Option Int) (repo : String) (acc : ChildValidationSummary) (o : Int) :
    (checkChildStep fetch pid rid repo acc o).valid_records +
      (checkChildStep fetch pid rid repo acc o).invalid_records =
      acc.valid_records + acc.invalid_records + 1 := by
  unfold checkChildStep
  cases fetch o <;> dsimp only <;> (repeat' split) <;> (try dsimp only) <;> omega

/-- The reparenting flag is never reset by a later iteration. -/
lemma checkChildStep_flag_mono (fetch : Int → Except String AORecord) (pid : Int)
    (rid : Option Int) (repo : String) (acc : ChildValidationSummary) (o : Int)
    (h : acc.reparenting_detected = true) :
    (checkChildStep fetch pid rid repo acc o).reparenting_detected = true := by
  unfold checkChildStep
  cases fetch o <;> dsimp only <;> (repeat' split) <;> simpa using h

/-- Processing a different object id never disturbs an existing
`current_parents` entry (nor creates one for `obj`). -/
lemma checkChildStep_lookup_other (fetch : Int → Except String AORecord) (pid : Int)
    (rid : Option Int) (repo : String) (acc : ChildValidationSummary) (o obj : Int)
    (ho : ¬ o = obj) :
    dictLookup obj ((checkChildStep fetch pid rid repo acc o).current_parents) =
      dictLookup obj acc.current_parents := by
  unfold checkChildStep
  cases hf : fetch o <;> dsimp only <;> (repeat' split) <;>
    first
      | rfl
      | rw [dictLookup_dictInsert_ne obj o (fun hh => ho hh.symm)]

/-- Running the loop body on an object whose fetched record carries both
guard fields, no parent hit, and a truthy current parent different from
the target id turns on the reparenting flag and records the mapping,
whatever the accumulator was. -/
lemma checkChildStep_establish (fetch : Int → Except String AORecord) (pid : Int)
    (rid : Option Int) (repo : String) (obj : Int) (r : AORecord) (ancs : List String)
    (s : String) (hf : fetch obj = .ok r) (hempty : r.isEmpty = false)
    (hanc : r.ancestors = some ancs) (hres : r.resource.isSome = true)
    (hpf : parentFound pid ancs = false) (hcur : currentParent pid ancs = some s)
    (hs1 : ¬ s = "") (hs2 : ¬ s = toString pid) (acc : ChildValidationSummary) :
    (checkChildStep fetch pid rid repo acc obj).reparenting_detected = true ∧
    dictLookup obj ((checkChildStep fetch pid rid repo acc obj).current_parents) = some s := by
  obtain ⟨rr, hrr⟩ := Option.isSome_iff_exists.mp hres
  have hguard : (r.isEmpty || r.ancestors.isNone || r.resource.isNone) = false := by
    simp [hempty, hanc, hrr]
  unfold checkChildStep
  rw [hf]
  (try dsimp only)
  rw [hguard, if_neg (by simp : ¬ (false = true))]
  (try dsimp only)
  rw [show r.ancestors.getD [] = ancs from by rw [hanc]; rfl]
  rw [hpf, hcur]
  (try dsimp only)
  have hcond : (!false && !(s == "") && !(s == toString pid)) = true := by
    simp [hs1, hs2]
  rw [if_pos hcond, Bool.false_and, if_neg (by simp : ¬ (false = true))]
  (repeat' split) <;>
    exact ⟨rfl, dictLookup_dictInsert_self obj s acc.current_parents⟩

/-- Processing any object cannot create a `current_parents` entry for an
object whose record (when its fetch succeeds) has the target parent in its
ancestors. -/
lemma checkChildStep_lookup_none (fetch : Int → Except String AORecord) (pid : Int)
    (rid : Option Int) (repo : String) (obj : Int)
    (hobj : ∀ r, fetch obj = .ok r → parentFound pid (r.ancestors.getD []) = true)
    (acc : ChildValidationSummary) (o : Int)
    (hacc : dictLookup obj acc.current_parents = none) :
    dictLookup obj ((checkChildStep fetch pid rid repo acc o).current_parents) = none := by
  by_cases ho : o = obj
  · subst ho
    unfold checkChildStep
    cases hf : fetch o with
    | error e => simpa using hacc
    | ok r =>
      dsimp only
      split
      · simpa using hacc
      · rw [hobj r hf]
        (repeat' split) <;> first | simpa using hacc | simp_all
  · rw [checkChildStep_lookup_other fetch pid rid repo acc o obj ho]
    exact hacc

/-- The ancestor ref the loop's current-parent tracking ends on: the last
ancestor whose ref mentions `archival_objects`. -/
def lastArchival (ancs : List String) : Option String :=
  (ancs.filter (fun a => strContainsSub a "archival_objects")).getLast?

/-- When no ancestor ref triggers the parent hit, the loop's final
current parent is the last path segment of the last archival-object
ancestor (or the initial accumulator when there is none). -/
lemma ancestorScan_snd (pid : Int) :
    ∀ (l : List String) (cur : Option String),
      l.any (fun a => strContainsSub a ("/" ++ toString pid)) = false →
      (ancestorScan pid l cur).2 =
        (match lastArchival l with
         | some a => some (lastSegment a)
         | none => cur) := by
  intro l
  induction l with
  | nil => intro cur _; rfl
  | cons a rest ih =>
    intro cur h
    have ha : strContainsSub a ("/" ++ toString pid) = false := by
      cases hh : strContainsSub a ("/" ++ toString pid) with
      | true => rw [List.any_cons, hh] at h; simp at h
      | false => rfl
    have hrest : rest.any (fun x => strContainsSub x ("/" ++ toString pid)) = false := by
      rw [List.any_cons, ha] at h
      simpa using h
    unfold ancestorScan
    rw [if_neg (by simp [ha])]
    cases harch : strContainsSub a "archival_objects" with
    | true =>
      rw [show (if true = true then some (lastSegment a) else cur) = some (lastSegment a) from rfl]
      rw [ih _ hrest]
      unfold lastArchival
      rw [@List.filter_cons_of_pos String (fun x => strContainsSub x "archival_objects") a rest harch]
      rw [List.getLast?_cons]
      cases hLA : (rest.filter (fun x => strContainsSub x "archival_objects")).getLast? with
      | some b => simp [hLA]
      | none => simp [hLA]
    | false =>
      rw [show (if false = true then some (lastSegment a) else cur) = cur from rfl]
      rw [ih _ hrest]
      unfold lastArchival
      rw [@List.filter_cons_of_neg String (fun x => strContainsSub x "archival_objects") a rest
        (by simp [harch])]

/-- Totals of the sampling loop over any id list and accumulator. -/
lemma foldChild_totals (fetch : Int → Except String AORecord) (pid : Int)
    (rid : Option Int) (repo : String) :
    ∀ (l : List Int) (acc : ChildValidationSummary),
      ((l.foldl (checkChildStep fetch pid rid repo) acc).total_checked
          = acc.total_checked + l.length) ∧
      ((l.foldl (checkChildStep fetch pid rid repo) acc).valid_records +
          (l.foldl (checkChildStep fetch pid rid repo) acc).invalid_records
          = acc.valid_records + acc.invalid_records + l.length) := by
  intro l
  induction l with
  | nil => intro acc; simp
  | cons o rest ih =>
    intro acc
    rw [List.foldl_cons, List.length_cons]
    obtain ⟨h1, h2⟩ := ih (checkChildStep fetch pid rid repo acc o)
    rw [h1, h2, checkChildStep_total, checkChildStep_counts]
    constructor <;> omega

/-- Persistence: once the reparenting flag is on and the mapping for `obj`
holds the value the loop recomputes for it, the rest of the run keeps
both. -/
lemma foldChild_reparent_keep (fetch : Int → Except String AORecord) (pid : Int)
    (rid : Option Int) (repo : String) (obj : Int) (r : AORecord) (ancs : List String)
    (s : String) (hf : fetch obj = .ok r) (hempty : r.isEmpty = false)
    (hanc : r.ancestors = some ancs) (hres : r.resource.isSome = true)
    (hpf : parentFound pid ancs = false) (hcur : currentParent pid ancs = some s)
    (hs1 : ¬ s = "") (hs2 : ¬ s = toString pid) :
    ∀ (l : List Int) (acc : ChildValidationSummary),
      acc.reparenting_detected = true →
      dictLookup obj acc.current_parents = some s →
      ((l.foldl (checkChildStep fetch pid rid repo) acc).reparenting_detected = true ∧
       dictLookup obj ((l.foldl (checkChildStep fetch pid rid repo) acc).current_parents)
         = some s) := by
  intro l
  induction l with
  | nil => intro acc h1 h2; exact ⟨h1, h2⟩
  | cons o rest ih =>
    intro acc h1 h2
    rw [List.foldl_cons]
    apply ih
    · exact checkChildStep_flag_mono fetch pid rid repo acc o h1
    · by_cases ho : o = obj
      · subst ho
        exact (checkChildStep_establish fetch pid rid repo o r ancs s hf hempty hanc hres
          hpf hcur hs1 hs2 acc).2
      · rw [checkChildStep_lookup_other fetch pid rid repo acc o obj ho]
        exact h2

/-- Whole-run reparenting detection for a sampled object meeting the
detection conditions. -/
lemma foldChild_reparent (fetch : Int → Except String AORecord) (pid : Int)
    (rid : Option Int) (repo : String) (obj : Int) (r : AORecord) (ancs : List String)
    (s : String) (hf : fetch obj = .ok r) (hempty : r.isEmpty = false)
    (hanc : r.ancestors = some ancs) (hres : r.resource.isSome = true)
    (hpf : parentFound pid ancs = false) (hcur : currentParent pid ancs = some s)
    (hs1 : ¬ s = "") (hs2 : ¬ s = toString pid) :
    ∀ (l : List Int) (acc : ChildValidationSummary),
      obj ∈ l →
      ((l.foldl (checkChildStep fetch pid rid repo) acc).reparenting_detected = true ∧
       dictLookup obj ((l.foldl (checkChildStep fetch pid rid repo) acc).current_parents)
         = some s) := by
  intro l
  induction l with
  | nil => intro acc h; simp at h
  | cons o rest ih =>
    intro acc hmem
    rw [List.foldl_cons]
    by_cases ho : o = obj
    · subst ho
      obtain ⟨hflag, hlook⟩ := checkChildStep_establish fetch pid rid repo o r ancs s hf
        hempty hanc hres hpf hcur hs1 hs2 acc
      exact foldChild_reparent_keep fetch pid rid repo o r ancs s hf hempty hanc hres
        hpf hcur hs1 hs2 rest _ hflag hlook
    · rcases List.mem_cons.mp hmem with he | hr
      · exact absurd he.symm ho
      · exact ih (checkChildStep fetch pid rid repo acc o) hr

/-- A run never creates a `current_parents` entry for an object whose
record has the target parent among its ancestors. -/
lemma foldChild_no_insert (fetch : Int → Except String AORecord) (pid : Int)
    (rid : Option Int) (repo : String) (obj : Int)
    (hobj : ∀ r, fetch obj = .ok r → parentFound pid (r.ancestors.getD []) = true) :
    ∀ (l : List Int) (acc : ChildValidationSummary),
      dictLookup obj acc.current_parents = none →
      dictLookup obj ((l.foldl (checkChildStep fetch pid rid repo) acc).current_parents)
        = none := by
  intro l
  induction l with
  | nil => intro acc h; exact h
  | cons o rest ih =>
    intro acc h
    rw [List.foldl_cons]
    exact ih _ (checkChildStep_lookup_none fetch pid rid repo obj hobj acc o h)

/-- C3 (amended: detection additionally requires the record to pass the
missing-fields guard — a sampled record lacking the `resource` field is
counted invalid and skipped before the reparenting analysis; and the
detected current parent is the last path segment of the *last* ancestor
ref naming `archival_objects`, required non-empty).  Under those
conditions, a sampled object whose ancestors do not include the target
parent but do include an archival-object ancestor with a different id
makes the summary report `reparenting_detected = true` and maps the
object's id to that detected parent id; and a sampled object whose
ancestors do include the target parent never appears as a key of
`current_parents`. -/
theorem C3_reparenting_detection (fetch : Int → Except String AORecord)
    (object_ids : List Int) (pid : Int) (rid : Option Int) (repo : String) (ms : Nat) :
    (∀ (obj : Int) (r : AORecord) (ancs : List String) (a : String),
      obj ∈ object_ids.take ms → fetch obj = .ok r → r.isEmpty = false →
      r.ancestors = some ancs → r.resource.isSome = true →
      ancs.any (fun x => strContainsSub x ("/" ++ toString pid)) = false →
      lastArchival ancs = some a → ¬ lastSegment a = "" → ¬ lastSegment a = toString pid →
      ((validate_child_records fetch object_ids pid rid repo ms).reparenting_detected = true ∧
       dictLookup obj
         ((validate_child_records fetch object_ids pid rid repo ms).current_parents)
         = some (lastSegment a))) ∧
    (∀ (obj : Int), obj ∈ object_ids.take ms →
      (∀ r, fetch obj = .ok r → parentFound pid (r.ancestors.getD []) = true) →
      dictLookup obj
        ((validate_child_records fetch object_ids pid rid repo ms).current_parents)
        = none) := by
  constructor
  · intro obj r ancs a hmem hf hempty hanc hres hnp hLA hs1 hs2
    have hpf : parentFound pid ancs = false := by
      unfold parentFound
      rw [ancestorScan_fst]
      exact hnp
    have hcur : currentParent pid ancs = some (lastSegment a) := by
      unfold currentParent
      rw [ancestorScan_snd pid ancs none hnp, hLA]
    exact foldChild_reparent fetch pid rid repo obj r ancs (lastSegment a) hf hempty hanc
      hres hpf hcur hs1 hs2 (object_ids.take ms) initialSummary hmem
  · intro obj _ hobj
    exact foldChild_no_insert fetch pid rid repo obj hobj (object_ids.take ms)
      initialSummary rfl

/-- The record fetched for the C3 witness object 7: parent 5 absent from
the ancestors, archival-object ancestor 99 present, resource matching. -/
def recC3w : AORecord :=
  ⟨false, some ["/repositories/2/resources/1", "/repositories/2/archival_objects/99"],
   some "/repositories/2/resources/1"⟩

/-- The record fetched for the C3 witness object 8: parent 5 present in
the ancestors. -/
def recC3w2 : AORecord :=
  ⟨false, some ["/repositories/2/archival_objects/5"], some "/repositories/2/resources/1"⟩

/-- The fetch oracle of the C3 witness. -/
def fetchC3w : Int → Except String AORecord :=
  fun i => if i == 7 then .ok recC3w else .ok recC3w2

/-- Witness for C3: in a run over objects 7 and 8 with target parent 5,
object 7 (reparented under 99) turns the flag on and is mapped to "99",
while the correctly parented object 8 never enters `current_parents`. -/
theorem C3_reparenting_detection_witness :
    ((validate_child_records fetchC3w [7, 8] 5 (some 1) "2" 10).reparenting_detected = true ∧
     dictLookup 7 ((validate_child_records fetchC3w [7, 8] 5 (some 1) "2" 10).current_parents)
       = some (lastSegment "/repositories/2/archival_objects/99")) ∧
    dictLookup 8 ((validate_child_records fetchC3w [7, 8] 5 (some 1) "2" 10).current_parents)
      = none :=
  ⟨(C3_reparenting_detection fetchC3w [7, 8] 5 (some 1) "2" 10).1 7 recC3w
      ["/repositories/2/resources/1", "/repositories/2/archival_objects/99"]
      "/repositories/2/archival_objects/99"
      (by decide) (by decide) (by decide) (by decide) (by decide) (by decide) (by decide)
      (by decide) (by decide),
   (C3_reparenting_detection fetchC3w [7, 8] 5 (some 1) "2" 10).2 8 (by decide)
      (fun r h => by
        rw [show fetchC3w 8 = Except.ok recC3w2 from rfl] at h
        cases h
        decide)⟩

/-- The record of the C3 counterexample: ancestors without the target
parent but with a different archival-object ancestor, `resource` field
missing. -/
def recC3x : AORecord := ⟨false, some ["/repositories/2/archival_objects/99"], none⟩

/-- The fetch oracle of the C3 counterexample. -/
def fetchC3x : Int → Except String AORecord := fun _ => .ok recC3x

/-- Counterexample to C3 as stated: sampled object 7's ancestors do not
include target parent 5 but do include archival-object ancestor 99 ≠ 5,
yet — because the record lacks the `resource` field — the run reports no
reparenting and records no mapping. -/
theorem C3_reparenting_detection_counterexample :
    fetchC3x 7 = .ok recC3x ∧
    recC3x.ancestors = some ["/repositories/2/archival_objects/99"] ∧
    (["/repositories/2/archival_objects/99"].any
      (fun x => strContainsSub x ("/" ++ toString (5 : Int)))) = false ∧
    lastArchival ["/repositories/2/archival_objects/99"]
      = some "/repositories/2/archival_objects/99" ∧
    lastSegment "/repositories/2/archival_objects/99" = "99" ∧
    (validate_child_records fetchC3x [7] 5 (some 1) "2" 10).reparenting_detected = false ∧
    dictLookup 7 ((validate_child_records fetchC3x [7] 5 (some 1) "2" 10).current_parents)
      = none := by decide

/-- C10: a validation run inspects exactly the first
`min(length, max_samples)` identifiers — `total_checked` equals that
bound — and classifies each inspected identifier exactly once, so
`valid_records + invalid_records = total_checked` even when individual
fetches raise. -/
theorem C10_sample_totals (fetch : Int → Except String AORecord)
    (object_ids : List Int) (pid : Int) (rid : Option Int) (repo : String) (ms : Nat) :
    (validate_child_records fetch object_ids pid rid repo ms).total_checked
        = min object_ids.length ms ∧
    (validate_child_records fetch object_ids pid rid repo ms).valid_records +
        (validate_child_records fetch object_ids pid rid repo ms).invalid_records
        = min object_ids.length ms := by
  obtain ⟨h1, h2⟩ := foldChild_totals fetch pid rid repo (object_ids.take ms) initialSummary
  unfold validate_child_records
  constructor
  · rw [h1]
    simp [initialSummary, List.length_take, Nat.min_comm]
  · rw [h2]
    simp [initialSummary, List.length_take, Nat.min_comm]

/-! ## Helper lemmas about the Move Executor -/

/-- Concatenating the batches gives back the record list: nothing is
dropped or duplicated by batching. -/
lemma chunks50_flatten {α : Type} :
    ∀ (n : Nat) (l : List α), l.length ≤ n → (chunks50 l).flatten = l := by
  intro n
  induction n with
  | zero =>
    intro l h
    have hl : l = [] := List.length_eq_zero.mp (Nat.le_zero.mp h)
    subst hl
    rw [chunks50]
    rfl
  | succ n ih =>
    intro l h
    cases l with
    | nil => rw [chunks50]; rfl
    | cons a t =>
      have hlen : t.length + 1 ≤ n + 1 := by simpa using h
      rw [chunks50]
      rw [if_neg (by simp : ¬ ((a :: t).isEmpty = true))]
      rw [List.flatten_cons]
      rw [ih ((a :: t).drop 50) (by simp only [List.length_drop, List.length_cons]; omega)]
      exact List.take_append_drop 50 (a :: t)

/-- The number of batches is `⌈length / 50⌉`. -/
lemma chunks50_length {α : Type} :
    ∀ (n : Nat) (l : List α), l.length ≤ n → (chunks50 l).length = (l.length + 49) / 50 := by
  intro n
  induction n with
  | zero =>
    intro l h
    have hl : l = [] := List.length_eq_zero.mp (Nat.le_zero.mp h)
    subst hl
    rw [chunks50]
    simp
  | succ n ih =>
    intro l h
    cases l with
    | nil => rw [chunks50]; simp
    | cons a t =>
      have hlen : t.length + 1 ≤ n + 1 := by simpa using h
      rw [chunks50]
      rw [if_neg (by simp : ¬ ((a :: t).isEmpty = true))]
      rw [List.length_cons, ih ((a :: t).drop 50) (by simp only [List.length_drop, List.length_cons]; omega)]
      simp only [List.length_drop, List.length_cons]
      omega

/-- Every batch holds at most 50 records. -/
lemma chunks50_sizes {α : Type} :
    ∀ (n : Nat) (l : List α), l.length ≤ n →
      ((chunks50 l).all (fun b => decide (b.length ≤ 50))) = true := by
  intro n
  induction n with
  | zero =>
    intro l h
    have hl : l = [] := List.length_eq_zero.mp (Nat.le_zero.mp h)
    subst hl
    rw [chunks50]
    rfl
  | succ n ih =>
    intro l h
    cases l with
    | nil => rw [chunks50]; rfl
    | cons a t =>
      have hlen : t.length + 1 ≤ n + 1 := by simpa using h
      rw [chunks50]
      rw [if_neg (by simp : ¬ ((a :: t).isEmpty = true))]
      rw [List.all_cons, ih ((a :: t).drop 50) (by simp only [List.length_drop, List.length_cons]; omega)]
      simp [List.length_take]

/-- The outcome `move_multiple_objects` records for one record: the
response on success, the error entry on a raised exception. -/
def moveOutcomeOf (mv : Int → Nat → Except String String) (record : MoveRecord) : MoveOutcome :=
  match mv record.id record.position with
  | .ok result => .success result
  | .error e => .failure e record.id

/-- A flat run of the inner loop appends one outcome per record, in
order, and counts each record exactly once. -/
lemma moveStep_foldl (mv : Int → Nat → Except String String) :
    ∀ (l : List MoveRecord) (acc : MoveAcc),
      ((l.foldl (moveStep mv) acc).results = acc.results ++ l.map (moveOutcomeOf mv)) ∧
      ((l.foldl (moveStep mv) acc).success_count + (l.foldl (moveStep mv) acc).error_count
        = acc.success_count + acc.error_count + l.length) := by
  intro l
  induction l with
  | nil => intro acc; simp
  | cons r rest ih =>
    intro acc
    rw [List.foldl_cons, List.map_cons, List.length_cons]
    obtain ⟨h1, h2⟩ := ih (moveStep mv acc r)
    have hstep : (moveStep mv acc r).results = acc.results ++ [moveOutcomeOf mv r] ∧
        (moveStep mv acc r).success_count + (moveStep mv acc r).error_count
          = acc.success_count + acc.error_count + 1 := by
      unfold moveStep moveOutcomeOf
      cases mv r.id r.position <;> dsimp only <;> exact ⟨rfl, by omega⟩
    constructor
    · rw [h1, hstep.1, List.append_assoc]
      rfl
    · rw [h2, hstep.2]
      omega

/-- C4: `move_multiple_objects` partitions its N records into ⌈N/50⌉
batches of at most 50, processed in order (their concatenation is the
original list); every record yields exactly one entry of the ordered
results list — each record's outcome depending only on its own move call,
so one failure never prevents later records in the same or later batches
from being attempted — and `success_count + error_count = N =
total_records`. -/
theorem C4_bulk_move_batches (mv : Int → Nat → Except String String)
    (records : List MoveRecord) :
    (chunks50 records).length = (records.length + 49) / 50 ∧
    ((chunks50 records).all (fun b => decide (b.length ≤ 50))) = true ∧
    (chunks50 records).flatten = records ∧
    (move_multiple_objects mv records).results = records.map (moveOutcomeOf mv) ∧
    (move_multiple_objects mv records).total_records = records.length ∧
    (move_multiple_objects mv records).success_count +
      (move_multiple_objects mv records).error_count = records.length := by
  have hfold : (chunks50 records).foldl
        (fun (a : MoveAcc) (batch : List MoveRecord) => batch.foldl (moveStep mv) a)
        ({ success_count := 0, error_count := 0, results := [] } : MoveAcc)
      = records.foldl (moveStep mv)
        ({ success_count := 0, error_count := 0, results := [] } : MoveAcc) := by
    rw [← List.foldl_flatten, chunks50_flatten records.length records le_rfl]
  refine ⟨chunks50_length records.length records le_rfl,
    chunks50_sizes records.length records le_rfl,
    chunks50_flatten records.length records le_rfl, ?_, rfl, ?_⟩
  · show ((chunks50 records).foldl
        (fun (a : MoveAcc) (batch : List MoveRecord) => batch.foldl (moveStep mv) a)
        ({ success_count := 0, error_count := 0, results := [] } : MoveAcc)).results
      = records.map (moveOutcomeOf mv)
    rw [hfold]
    simpa using (moveStep_foldl mv records
      { success_count := 0, error_count := 0, results := [] }).1
  · show ((chunks50 records).foldl
        (fun (a : MoveAcc) (batch : List MoveRecord) => batch.foldl (moveStep mv) a)
        ({ success_count := 0, error_count := 0, results := [] } : MoveAcc)).success_count +
        ((chunks50 records).foldl
          (fun (a : MoveAcc) (batch : List MoveRecord) => batch.foldl (moveStep mv) a)
          ({ success_count := 0, error_count := 0, results := [] } : MoveAcc)).error_count
      = records.length
    rw [hfold]
    simpa using (moveStep_foldl mv records
      { success_count := 0, error_count := 0, results := [] }).2

/-- The claim's literal title resolution: `"No title found"` only when the
title is absent; the first element whenever the title is a list. -/
def specTitleResolution (r : ParentRecord) : String :=
  match r.title with
  | none => "No title found"
  | some (.str s) => s
  | some (.list (h :: _)) => h
  | some (.list []) => "No title found"

/-- The amended title resolution: as the claim, except that a falsy
resolved value — an empty string, an empty list, or a list whose first
element is the empty string — also falls back to `"No title found"`. -/
def specTitleResolutionAmended (r : ParentRecord) : String :=
  match r.title with
  | none => "No title found"
  | some (.str s) => if s == "" then "No title found" else s
  | some (.list (h :: _)) => if h == "" then "No title found" else h
  | some (.list []) => "No title found"

/-- The code's title resolution coincides with the amended description. -/
lemma resolveTitle_eq_amended (r : ParentRecord) :
    resolveTitle r = specTitleResolutionAmended r := by
  unfold resolveTitle specTitleResolutionAmended
  rcases r.title with _ | (_ | ⟨_ | ⟨h, t⟩⟩) <;> rfl

/-- C9 (amended: the resolved title falls back to `"No title found"` not
only when the title is absent but also when the resolved value is falsy —
an empty string, an empty list, or a list starting with an empty string).
Parent validation is total over retrieval failures: any fetch error yields
`exists = false` with the error message and no exception escapes the
validation layer (the wrapper simply forwards the flag); a successful
fetch yields `exists = true` with the title resolved per the amended
rule (first element of a non-empty list, fallback when absent or
falsy). -/
theorem C9_validate_parent_total (fetch : String → Int → Except String ParentRecord)
    (parent_type : String) (parent_id : Int) :
    validate_parent_record fetch parent_type parent_id =
      (match fetch parent_type parent_id with
       | .error e =>
         { recordExists := false, type := parent_type, id := parent_id, title := none,
           record := none, error := some e }
       | .ok r =>
         { recordExists := true, type := parent_type, id := parent_id,
           title := some (specTitleResolutionAmended r), record := some r,
           error := none }) ∧
    ValidationManager.validate_parent_record fetch parent_type parent_id =
      ((validate_parent_record fetch parent_type parent_id).recordExists,
        validate_parent_record fetch parent_type parent_id) := by
  constructor
  · unfold validate_parent_record get_record_title
    cases h : fetch parent_type parent_id with
    | error e => rfl
    | ok r => simp [resolveTitle_eq_amended]
  · rfl

/-- The parent record of the C9 counterexample: its title is the
one-element list `[""]`. -/
def recC9x : ParentRecord := ⟨some (.list [""]), none⟩

/-- Counterexample to C9 as stated: for a title that is the list `[""]`,
the claim's resolution ("taking the first element when the title is a
list") yields `""`, but the code returns `"No title found"` (Python's
falsy-value fallback). -/
theorem C9_validate_parent_total_counterexample :
    (validate_parent_record (fun _ _ => .ok recC9x) "resources" 1).title
      = some "No title found" ∧
    specTitleResolution recC9x = "" ∧
    ¬ (validate_parent_record (fun _ _ => .ok recC9x) "resources" 1).title
        = some (specTitleResolution recC9x) := by decide

end ArchivesSpaceClient

namespace ValidationManager

open ExcelProcessor (MoveRecord)

/-- C5: the child-validation wrapper judges the run eligible
(`is_valid = true`) iff the summary counts at least one valid record and
exactly zero invalid records; any single invalid sampled record forces
`is_valid = false`. -/
theorem C5_child_validation_eligibility
    (fetch : Int → Except String ArchivesSpaceClient.AORecord)
    (records : List MoveRecord) (parent_id : Int) (resource_id : Option Int)
    (repository_id : String) (max_samples : Nat) :
    ((validate_child_records fetch records parent_id resource_id repository_id
        max_samples).1 = true ↔
      (0 < (validate_child_records fetch records parent_id resource_id repository_id
          max_samples).2.valid_records ∧
       (validate_child_records fetch records parent_id resource_id repository_id
          max_samples).2.invalid_records = 0)) ∧
    (0 < (validate_child_records fetch records parent_id resource_id repository_id
        max_samples).2.invalid_records →
      (validate_child_records fetch records parent_id resource_id repository_id
        max_samples).1 = false) := by
  unfold validate_child_records
  dsimp only
  constructor
  · constructor
    · intro h
      have h2 := h
      rw [Bool.and_eq_true, decide_eq_true_iff, decide_eq_true_iff] at h2
      exact h2
    · intro h
      rw [Bool.and_eq_true, decide_eq_true_iff, decide_eq_true_iff]
      exact h
  · intro h
    rw [Bool.and_eq_false_iff]
    right
    rw [decide_eq_false_iff_not]
    omega

/-- The fetch oracle of the C5 witness: every sampled fetch raises. -/
def fetchC5 : Int → Except String ArchivesSpaceClient.AORecord :=
  fun _ => .error "TransportError"

/-- Witness for C5: one sampled record whose fetch raises gives an invalid
count of 1 and a run judged not eligible. -/
theorem C5_child_validation_eligibility_witness :
    0 < (validate_child_records fetchC5 [⟨1, 1, 1, 0⟩] 5 (some 1) "2" 10).2.invalid_records ∧
    (validate_child_records fetchC5 [⟨1, 1, 1, 0⟩] 5 (some 1) "2" 10).1 = false :=
  ⟨by decide,
   (C5_child_validation_eligibility fetchC5 [⟨1, 1, 1, 0⟩] 5 (some 1) "2" 10).2 (by decide)⟩

/-- `specExtractAO`, the claim's description of resource-id derivation for
an "archival_objects" parent: on a successful fetch, parse the integer
from the last path segment of `resource.ref`; an absent or empty ref, an
unparsable segment, or a failed fetch give `none`. -/
def specExtractAO (res : Except String ArchivesSpaceClient.ParentRecord) : Option Int :=
  match res with
  | .error _ => none
  | .ok r =>
    match r.resource with
    | none => none
    | some ref => if ref == "" then none else pyIntStr (lastSegment ref)

/-- C8: a "resources" parent is its own resource id, decided without any
record fetch (the result is the same under every oracle); an
"archival_objects" parent follows `resource.ref` and parses the last path
segment, with `none` — never an exception — on a failed fetch or an
absent/malformed ref; and child validation still runs over the whole
sample in this degraded mode (`resource_id = None`). -/
theorem C8_extract_resource_id
    (fetch : String → Int → Except String ArchivesSpaceClient.ParentRecord)
    (parent_id : Int) :
    (∀ (g : String → Int → Except String ArchivesSpaceClient.ParentRecord),
      extract_resource_id_from_parent fetch "resources" parent_id
        = extract_resource_id_from_parent g "resources" parent_id) ∧
    extract_resource_id_from_parent fetch "resources" parent_id = some parent_id ∧
    extract_resource_id_from_parent fetch "archival_objects" parent_id
      = specExtractAO (fetch "archival_objects" parent_id) ∧
    (∀ (f2 : Int → Except String ArchivesSpaceClient.AORecord) (object_ids : List Int)
        (repository_id : String) (max_samples : Nat),
      (ArchivesSpaceClient.validate_child_records f2 object_ids parent_id none
          repository_id max_samples).total_checked
        = min object_ids.length max_samples) := by
  refine ⟨fun g => rfl, rfl, ?_, ?_⟩
  · unfold extract_resource_id_from_parent specExtractAO
    rw [if_neg (by decide : ¬ (("archival_objects" == "resources") = true))]
    cases fetch "archival_objects" parent_id with
    | error e => rfl
    | ok r =>
      dsimp only
      cases hr : r.resource with
      | none => rfl
      | some ref =>
        dsimp only [Option.getD]
        cases href : (ref == "") with
        | true => rfl
        | false => cases pyIntStr (lastSegment ref) <;> rfl
  · intro f2 object_ids repository_id max_samples
    obtain ⟨h1, _⟩ := ArchivesSpaceClient.foldChild_totals f2 parent_id none repository_id
      (object_ids.take max_samples) ArchivesSpaceClient.initialSummary
    unfold ArchivesSpaceClient.validate_child_records
    rw [h1]
    simp [ArchivesSpaceClient.initialSummary, List.length_take, Nat.min_comm]

end ValidationManager

end AspaceReorder
